import Mathlib

/-
Verification of the syslua configuration manager against its specification.

The development shallowly embeds the Rust sources of the `core`, `lib` and
`lua` crates: pure functions become Lean functions, filesystem-backed state
becomes explicit state passing, and the process environment becomes an
ordered list of bindings.  Each section names the Rust file and function it
embeds; field and function names follow the source wherever Lean allows.
-/

namespace Syslua

/- ===================================================================
   Section 1: environment construction of `execute_cmd`
   (src/crates/lib/src/action/actions/cmd.rs, Unix branch).

   `tokio::process::Command` environment handling is modelled as an
   ordered list of (key, value) bindings applied left to right after
   `env_clear`; a later binding for the same key overrides an earlier
   one, which is exactly the override semantics of repeated `env` calls.
   =================================================================== -/

/-- Lookup in an ordered binding list: the last binding for the key wins,
mirroring repeated `Command::env` calls after `env_clear`. -/
def envLookup (entries : List (String × String)) (k : String) : Option String :=
  (entries.reverse.find? (fun e => e.1 == k)).map (fun e => e.2)

/-- Scratch tmp directory created by `execute_cmd`: out_dir joined with tmp. -/
def sandboxTmpDir (outDir : String) : String := outDir ++ "/tmp"

/-- Sandbox bindings applied by `execute_cmd` after `env_clear`, in source
order (Unix branch: PATH sentinel, HOME sentinel, tmp redirects, `out`,
minimal locale, SOURCE_DATE_EPOCH). -/
def sandboxEnv (outDir : String) : List (String × String) :=
  [("PATH", "/path-not-set"),
   ("HOME", "/homeless-shelter"),
   ("TMPDIR", sandboxTmpDir outDir),
   ("TMP", sandboxTmpDir outDir),
   ("TEMP", sandboxTmpDir outDir),
   ("TEMPDIR", sandboxTmpDir outDir),
   ("out", outDir),
   ("LANG", "C"),
   ("LC_ALL", "C"),
   ("SOURCE_DATE_EPOCH", "315532800")]

/-- Final child environment built by `execute_cmd`: cleared environment,
then the sandbox bindings, then the caller-supplied `env` map merged last. -/
def executeCmdEnv (userEnv : Option (List (String × String))) (outDir : String) :
    List (String × String) :=
  sandboxEnv outDir ++ userEnv.getD []

/- ===================================================================
   Section 2: input source URL parsing
   (src/crates/lib/src/inputs/source.rs, `parse`).

   Strings are modelled as lists of characters; `str.rfind('#')` splitting
   is embedded by `splitAtLastHash`, whose characterisation lemmas below
   show it returns the slices before and after the last `#`.
   =================================================================== -/

/-- Parsed input source (`InputSource` in source.rs). -/
inductive InputSource where
  | git (url : List Char) (rev : Option (List Char))
  | path (p : List Char)
deriving DecidableEq

/-- Errors of input URL parsing (`ParseError` in source.rs). -/
inductive ParseError where
  | unknownScheme (scheme : List Char)
  | missingGitUrl
  | missingPath
  | emptyGitRef
deriving DecidableEq

/-- Character list of the `git:` scheme tag. -/
def gitSchemeTag : List Char := ['g', 'i', 't', ':']

/-- Character list of the `path:` scheme tag. -/
def pathSchemeTag : List Char := ['p', 'a', 't', 'h', ':']

/-- Split a character list at the last occurrence of `#`, returning the
slices before and after it (the embedding of `rest.rfind('#')` followed by
the two index slices in `parse`). -/
def splitAtLastHash : List Char → Option (List Char × List Char)
  | [] => none
  | c :: cs =>
    match splitAtLastHash cs with
    | some (u, r) => some (c :: u, r)
    | none => if c = '#' then some ([], cs) else none

/-- Embedding of `parse` from source.rs: `git:` URLs with an optional
`#rev` split at the last `#`, `path:` local paths, and the scheme-error
fallback that reports the text before the first `:`. -/
def parseInputSource (url : List Char) : Except ParseError InputSource :=
  if url.take 4 = gitSchemeTag then
    let rest := url.drop 4
    if rest = [] then .error .missingGitUrl
    else
      match splitAtLastHash rest with
      | some (urlPart, refPart) =>
        if urlPart = [] then .error .missingGitUrl
        else if refPart = [] then .error .emptyGitRef
        else .ok (.git urlPart (some refPart))
      | none => .ok (.git rest none)
  else if url.take 5 = pathSchemeTag then
    let rest := url.drop 5
    if rest = [] then .error .missingPath
    else .ok (.path rest)
  else
    .error (.unknownScheme (url.takeWhile (fun c => c ≠ ':')))

/- ===================================================================
   Section 3: lock file loading
   (src/crates/core/src/input.rs, `LockFile::load`, `LockFile::new`).

   The on-disk lock file is modelled by `LockFileOnDisk`: it is missing,
   or present but not valid JSON for `LockFile`, or present and parsed.
   The serde_json parser itself is the external boundary of the embedding.
   =================================================================== -/

/-- Input source recorded in a lock entry (`InputSource` in core input.rs). -/
inductive CoreInputSource where
  | github (owner repo git_ref : String)
  | localPath (p : String)
deriving DecidableEq

/-- Locked input entry (`LockedInput` in core input.rs). -/
structure LockedInput where
  uri : String
  source : CoreInputSource
  revision : Option String
  hash : Option String
  updated_at : String
deriving DecidableEq

/-- Parsed lock file contents (`LockFile` in core input.rs); `inputs` is
the BTreeMap as a key-sorted association list. -/
structure LockFileData where
  version : Nat
  inputs : List (String × LockedInput)
deriving DecidableEq

/-- Current lock file format version (`LockFile::VERSION`). -/
def LOCK_FILE_VERSION : Nat := 1

/-- Result of `LockFile::new`: current version, no inputs. -/
def lockFileNew : LockFileData := { version := LOCK_FILE_VERSION, inputs := [] }

/-- State of the lock file on disk as `LockFile::load` observes it. -/
inductive LockFileOnDisk where
  | missing
  | unparsable
  | parsed (data : LockFileData)
deriving DecidableEq

/-- Load errors of `LockFile::load` (both are `CoreError::InvalidInput` in
the source; the constructor records which check produced the error). -/
inductive LockLoadError where
  | parseFailed
  | versionTooNew (found : Nat)
deriving DecidableEq

/-- Embedding of `LockFile::load`: a missing file yields a fresh lock file,
unparsable contents fail, and a parsed file with a version newer than the
supported one fails. -/
def lockFileLoad : LockFileOnDisk → Except LockLoadError LockFileData
  | .missing => .ok lockFileNew
  | .unparsable => .error .parseFailed
  | .parsed d =>
    if d.version > LOCK_FILE_VERSION then .error (.versionTooNew d.version)
    else .ok d

/- ===================================================================
   Section 4: `execute_write_file`
   (src/crates/lib/src/action/actions/write_file.rs).

   The filesystem is a list of files (path components mapped to content
   plus a permission mode) and a list of directories.  `fs::write` creates
   a file with the default mode, or truncates an existing file keeping its
   mode; `fs::create_dir_all` creates every ancestor directory.
   =================================================================== -/

/-- One regular file: its content and its permission mode; `mode = none`
is the platform default mode, never set explicitly by an action. -/
structure FileEntry where
  content : String
  mode : Option Nat
deriving DecidableEq

/-- A model filesystem: files keyed by component paths, plus directories. -/
structure Fs where
  files : List (List String × FileEntry)
  dirs : List (List String)
deriving DecidableEq

/-- Look up a file by path. -/
def fsGetFile (fs : Fs) (p : List String) : Option FileEntry :=
  (fs.files.find? (fun e => e.1 == p)).map (fun e => e.2)

/-- Model of `fs::create_dir_all`: every nonempty prefix of the directory
path is created. -/
def fsCreateDirAll (fs : Fs) (d : List String) : Fs :=
  { fs with dirs := d.inits.filter (fun x => x ≠ []) ++ fs.dirs }

/-- Model of `fs::write`: the file is created or truncated; an existing
mode is kept, a new file gets the default mode. -/
def fsWrite (fs : Fs) (p : List String) (content : String) : Fs :=
  let oldMode : Option Nat :=
    match fsGetFile fs p with
    | some e => e.mode
    | none => none
  { fs with
    files := (p, { content := content, mode := oldMode }) ::
      fs.files.filter (fun e => !(e.1 == p)) }

/-- Embedding of `execute_write_file(path, content)`: create the parent
directories (when the path has a parent), then write the content.  The
function takes no mode argument. -/
def execute_write_file (fs : Fs) (path : List String) (content : String) : Fs :=
  let fs1 := if path = [] then fs else fsCreateDirAll fs path.dropLast
  fsWrite fs1 path content

/-- Behaviour claimed by the specification for a WriteFile action with an
optional mode: like `execute_write_file`, but the given mode is applied to
the written file on POSIX.  Stated only to be compared with the embedding
of the source, which has no mode parameter. -/
def writeFileSpecClaim (fs : Fs) (path : List String) (content : String)
    (mode : Option Nat) : Fs :=
  let fs1 := execute_write_file fs path content
  match mode with
  | none => fs1
  | some m =>
    { fs1 with
      files := fs1.files.map (fun e =>
        if e.1 == path then (e.1, { content := e.2.content, mode := some m }) else e) }

/- ===================================================================
   Section 5: store object naming
   (src/crates/core/src/store.rs `truncate_hash`, `Store::object_path`;
   src/crates/lib/src/store/mod.rs `build_dir_name`).

   Names and hashes are hex/ASCII, so Rust byte slicing coincides with
   character slicing; strings are lists of characters here.
   =================================================================== -/

/-- Length of truncated hash for store paths in the core crate
(`HASH_TRUNCATE_LEN` in store.rs). -/
def HASH_TRUNCATE_LEN : Nat := 9

/-- Embedding of `truncate_hash` from core store.rs: keep the first
`HASH_TRUNCATE_LEN` characters, or the whole hash when it is short. -/
def truncate_hash (hash : List Char) : List Char :=
  if hash.length > HASH_TRUNCATE_LEN then hash.take HASH_TRUNCATE_LEN else hash

/-- Directory name produced by `Store::object_path` in core store.rs:
`name-version-truncatedHash` or `name-truncatedHash`. -/
def object_dir_name (name : List Char) (version : Option (List Char))
    (hash : List Char) : List Char :=
  match version with
  | some v => name ++ '-' :: v ++ '-' :: truncate_hash hash
  | none => name ++ '-' :: truncate_hash hash

/-- Full object path of `Store::object_path`: `<root>/obj/<dir name>`. -/
def object_path (root name : List Char) (version : Option (List Char))
    (hash : List Char) : List Char :=
  root ++ "/obj/".data ++ object_dir_name name version hash

/-- Directory name produced by `build_dir_name` in lib store/mod.rs: the
stored `BuildHash` string is embedded unmodified (no truncation in the
function body, although its doc comment and its unit tests assume one). -/
def lib_build_dir_name (name : List Char) (version : Option (List Char))
    (hash : List Char) : List Char :=
  match version with
  | some v => name ++ '-' :: v ++ '-' :: hash
  | none => name ++ '-' :: hash

/- ===================================================================
   Section 6: SHA-256
   (embedding of the sha2 crate as used through `sha256_hex`,
   `sha256_string` in src/crates/core/src/store.rs).

   Bytes and 32-bit words are natural numbers reduced modulo 2^32 where
   overflow matters.  The implementation is executable; the witness
   theorems below evaluate it against the test vector recorded in the
   unit tests of store.rs.
   =================================================================== -/

/-- Word size modulus for 32-bit arithmetic. -/
def w32 : Nat := 4294967296

/-- Addition modulo 2^32. -/
def add32 (a b : Nat) : Nat := (a + b) % w32

/-- Right rotation of a 32-bit word. -/
def rotr32 (n x : Nat) : Nat := ((x >>> n) ||| (x <<< (32 - n))) % w32

/-- Bitwise complement of a 32-bit word. -/
def not32 (x : Nat) : Nat := x ^^^ (w32 - 1)

/-- SHA-256 choice function. -/
def sha2Ch (x y z : Nat) : Nat := (x &&& y) ^^^ (not32 x &&& z)

/-- SHA-256 majority function. -/
def sha2Maj (x y z : Nat) : Nat := (x &&& y) ^^^ (x &&& z) ^^^ (y &&& z)

/-- SHA-256 big sigma 0. -/
def bigSigma0 (x : Nat) : Nat := rotr32 2 x ^^^ rotr32 13 x ^^^ rotr32 22 x

/-- SHA-256 big sigma 1. -/
def bigSigma1 (x : Nat) : Nat := rotr32 6 x ^^^ rotr32 11 x ^^^ rotr32 25 x

/-- SHA-256 small sigma 0. -/
def smallSigma0 (x : Nat) : Nat := rotr32 7 x ^^^ rotr32 18 x ^^^ (x >>> 3)

/-- SHA-256 small sigma 1. -/
def smallSigma1 (x : Nat) : Nat := rotr32 17 x ^^^ rotr32 19 x ^^^ (x >>> 10)

/-- SHA-256 round constants. -/
def sha2K : List Nat :=
  [1116352408, 1899447441, 3049323471, 3921009573, 961987163,
   1508970993, 2453635748, 2870763221, 3624381080, 310598401,
   607225278, 1426881987, 1925078388, 2162078206, 2614888103,
   3248222580, 3835390401, 4022224774, 264347078, 604807628,
   770255983, 1249150122, 1555081692, 1996064986, 2554220882,
   2821834349, 2952996808, 3210313671, 3336571891, 3584528711,
   113926993, 338241895, 666307205, 773529912, 1294757372,
   1396182291, 1695183700, 1986661051, 2177026350, 2456956037,
   2730485921, 2820302411, 3259730800, 3345764771, 3516065817,
   3600352804, 4094571909, 275423344, 430227734, 506948616,
   659060556, 883997877, 958139571, 1322822218, 1537002063,
   1747873779, 1955562222, 2024104815, 2227730452, 2361852424,
   2428436474, 2756734187, 3204031479, 3329325298]

/-- SHA-256 initial hash state. -/
def sha2H0 : List Nat :=
  [1779033703, 3144134277, 1013904242, 2773480762,
   1359893119, 2600822924, 528734635, 1541459225]

/-- Big-endian byte decomposition with a fixed byte count. -/
def beBytes (n : Nat) : Nat → List Nat
  | 0 => []
  | k + 1 => beBytes (n / 256) k ++ [n % 256]

/-- Group bytes into big-endian 32-bit words. -/
def bytesToWords : List Nat → List Nat
  | b0 :: b1 :: b2 :: b3 :: rest =>
    (((b0 * 256 + b1) * 256 + b2) * 256 + b3) :: bytesToWords rest
  | _ => []

/-- One extension step of the message schedule. -/
def extendOnce (ws : List Nat) : List Nat :=
  let i := ws.length
  ws ++ [add32 (add32 (smallSigma1 (ws.getD (i - 2) 0)) (ws.getD (i - 7) 0))
              (add32 (smallSigma0 (ws.getD (i - 15) 0)) (ws.getD (i - 16) 0))]

/-- Extend the 16 initial words of a block to the 64-word schedule. -/
def fullSchedule (w16 : List Nat) : List Nat :=
  (List.range 48).foldl (fun ws _ => extendOnce ws) w16

/-- One round of the SHA-256 compression function. -/
def compressStep (st : List Nat) (kw : Nat × Nat) : List Nat :=
  match st with
  | [a, b, c, d, e, f, g, h] =>
    let t1 := add32 (add32 (add32 h (bigSigma1 e)) (add32 (sha2Ch e f g) kw.1)) kw.2
    let t2 := add32 (bigSigma0 a) (sha2Maj a b c)
    [add32 t1 t2, a, b, c, add32 d t1, e, f, g]
  | _ => st

/-- Process one 64-byte block into the running hash state. -/
def processBlock (st : List Nat) (block : List Nat) : List Nat :=
  let ws := fullSchedule (bytesToWords block)
  let final := (sha2K.zip ws).foldl compressStep st
  st.zipWith add32 final

/-- SHA-256 message padding: `0x80`, zeros to 56 mod 64, then the bit
length as 8 big-endian bytes. -/
def padMessage (msg : List Nat) : List Nat :=
  let padZeros := (119 - msg.length % 64) % 64
  msg ++ 0x80 :: List.replicate padZeros 0 ++ beBytes (msg.length * 8) 8

/-- Split a byte list into 64-byte chunks (fuel-based recursion). -/
def chunksAux : Nat → List Nat → List (List Nat)
  | 0, _ => []
  | _ + 1, [] => []
  | n + 1, l => l.take 64 :: chunksAux n (l.drop 64)

/-- Split a padded message into its 64-byte blocks. -/
def chunks64 (l : List Nat) : List (List Nat) := chunksAux l.length l

/-- SHA-256 digest of a byte list, as 32 bytes. -/
def sha256Bytes (msg : List Nat) : List Nat :=
  let final := (chunks64 (padMessage msg)).foldl processBlock sha2H0
  (final.map (fun w => beBytes w 4)).flatten

/-- Lowercase hex digit. -/
def hexDigit (n : Nat) : Char :=
  if n < 10 then Char.ofNat (48 + n) else Char.ofNat (87 + n)

/-- Two lowercase hex digits of a byte. -/
def byteToHex (b : Nat) : List Char := [hexDigit (b / 16), hexDigit (b % 16)]

/-- Embedding of `sha256_hex` from core store.rs: full lowercase hex digest
of a byte list. -/
def sha256_hex (data : List Nat) : String :=
  String.mk ((sha256Bytes data).map byteToHex).flatten

/-- UTF-8 encoding of one character, as bytes. -/
def utf8EncodeCharBytes (c : Char) : List Nat :=
  let n := c.toNat
  if n < 0x80 then [n]
  else if n < 0x800 then
    [0xC0 ||| (n >>> 6), 0x80 ||| (n &&& 0x3F)]
  else if n < 0x10000 then
    [0xE0 ||| (n >>> 12), 0x80 ||| ((n >>> 6) &&& 0x3F), 0x80 ||| (n &&& 0x3F)]
  else
    [0xF0 ||| (n >>> 18), 0x80 ||| ((n >>> 12) &&& 0x3F),
     0x80 ||| ((n >>> 6) &&& 0x3F), 0x80 ||| (n &&& 0x3F)]

/-- UTF-8 bytes of a character list. -/
def utf8Bytes (cs : List Char) : List Nat := (cs.map utf8EncodeCharBytes).flatten

/-- Embedding of `sha256_string` from core store.rs: SHA-256 of the UTF-8
bytes of the string. -/
def sha256_string (s : String) : String := sha256_hex (utf8Bytes s.data)

/- ===================================================================
   Section 7: derivation specifications and their hash
   (src/crates/core/src/derivation.rs, `InputValue`, `System`,
   `DerivationSpec`, `DerivationSpec::compute_hash`).

   serde_json serialization of the inputs map is embedded structurally:
   compact JSON, BTreeMap keys in sorted order, untagged enum values,
   struct fields in declaration order, serde_json string escaping.  The
   `Number` variant (an IEEE-754 double rendered by the serde_json float
   formatter) is outside the embedding: floating-point formatting does not
   translate, and no claim in scope depends on it.
   =================================================================== -/

/-- Opening brace character, kept out of string literals. -/
def lbrace : Char := Char.ofNat 123

/-- Closing brace character, kept out of string literals. -/
def rbrace : Char := Char.ofNat 125

/-- serde_json escaping of one character inside a string literal. -/
def jsonEscapeChar (c : Char) : List Char :=
  if c = '"' then ['\\', '"']
  else if c = '\\' then ['\\', '\\']
  else if c = Char.ofNat 8 then ['\\', 'b']
  else if c = Char.ofNat 9 then ['\\', 't']
  else if c = Char.ofNat 10 then ['\\', 'n']
  else if c = Char.ofNat 12 then ['\\', 'f']
  else if c = Char.ofNat 13 then ['\\', 'r']
  else if c.toNat < 32 then
    '\\' :: 'u' :: '0' :: '0' :: [hexDigit (c.toNat / 16), hexDigit (c.toNat % 16)]
  else [c]

/-- serde_json string literal of a string. -/
def jsonStringLit (s : String) : List Char :=
  '"' :: (s.data.map jsonEscapeChar).flatten ++ ['"']

/-- Comma-separated concatenation of serialized items. -/
def commaSep : List (List Char) → List Char
  | [] => []
  | [x] => x
  | x :: xs => x ++ ',' :: commaSep xs

/-- Input values of a derivation (`InputValue` in derivation.rs), without
the floating-point `Number` variant (see the section comment). -/
inductive InputValue where
  | str (s : String)
  | boolean (b : Bool)
  | table (entries : List (String × InputValue))
  | arr (elems : List InputValue)
  | ref (hash : String) (outputs : List (String × String))

mutual

/-- serde_json serialization of one untagged `InputValue`: strings, bools
and arrays serialize to their plain JSON forms; a `DerivationRef` is a
struct with fields `hash` and `outputs`. -/
def jsonOfValue : InputValue → List Char
  | .str s => jsonStringLit s
  | .boolean b => if b then "true".data else "false".data
  | .table es => lbrace :: commaSep (jsonOfEntries es) ++ [rbrace]
  | .arr xs => '[' :: commaSep (jsonOfElems xs) ++ [']']
  | .ref h outs =>
    lbrace :: (jsonStringLit "hash" ++ ':' :: jsonStringLit h) ++ ',' ::
      (jsonStringLit "outputs" ++ ':' :: lbrace ::
        commaSep (outs.map (fun kv => jsonStringLit kv.1 ++ ':' :: jsonStringLit kv.2)) ++
        [rbrace]) ++ [rbrace]

/-- serde_json serialization of the entries of a string-keyed map. -/
def jsonOfEntries : List (String × InputValue) → List (List Char)
  | [] => []
  | (k, v) :: rest => (jsonStringLit k ++ ':' :: jsonOfValue v) :: jsonOfEntries rest

/-- serde_json serialization of the elements of an array. -/
def jsonOfElems : List InputValue → List (List Char)
  | [] => []
  | v :: rest => jsonOfValue v :: jsonOfElems rest

end

/-- serde_json serialization of the whole inputs map (a BTreeMap with keys
in sorted order, represented as a key-sorted association list). -/
def inputsJson (inputs : List (String × InputValue)) : List Char :=
  lbrace :: commaSep (jsonOfEntries inputs) ++ [rbrace]

/-- Platform information hashed into a derivation (`System` in
derivation.rs). -/
structure SystemInfo where
  platform : String
  os : String
  arch : String
  hostname : String
  username : String
deriving DecidableEq

/-- serde_json serialization of `System`: struct fields in declaration
order. -/
def systemJson (sys : SystemInfo) : List Char :=
  lbrace :: commaSep
    [jsonStringLit "platform" ++ ':' :: jsonStringLit sys.platform,
     jsonStringLit "os" ++ ':' :: jsonStringLit sys.os,
     jsonStringLit "arch" ++ ':' :: jsonStringLit sys.arch,
     jsonStringLit "hostname" ++ ':' :: jsonStringLit sys.hostname,
     jsonStringLit "username" ++ ':' :: jsonStringLit sys.username] ++ [rbrace]

/-- Derivation specification (`DerivationSpec` in derivation.rs). -/
structure DerivationSpec where
  name : String
  version : Option String
  inputs : List (String × InputValue)
  build_hash : String
  outputs : List String
  system : SystemInfo

/-- Version field as `compute_hash` encodes it:
`self.version.as_deref().unwrap_or("")`. -/
def versionEnc (v : Option String) : List Char := (v.getD "").data

/-- Output list as `compute_hash` encodes it: `self.outputs.join(",")`. -/
def joinComma : List String → List Char
  | [] => []
  | [x] => x.data
  | x :: xs => x.data ++ ',' :: joinComma xs

/-- Pre-image string built by `DerivationSpec::compute_hash`: the fields
interleaved with newline-separated labels, exactly as in the `format!`
call of the source. -/
def computeHashInput (s : DerivationSpec) : List Char :=
  "name:".data ++ s.name.data
  ++ "\nversion:".data ++ versionEnc s.version
  ++ "\ninputs:".data ++ inputsJson s.inputs
  ++ "\nbuild:".data ++ s.build_hash.data
  ++ "\noutputs:".data ++ joinComma s.outputs
  ++ "\nsystem:".data ++ systemJson s.system

/-- Embedding of `DerivationSpec::compute_hash`: SHA-256 of the UTF-8
bytes of the pre-image string. -/
def compute_hash (s : DerivationSpec) : String :=
  sha256_hex (utf8Bytes (computeHashInput s))

/- ===================================================================
   Section 8: `BuildContext::fetch_url`
   (src/crates/core/src/build.rs).

   The download itself is the external boundary: the claim is conditional
   on a completed download, so the body of the downloaded file is an
   argument.  `url.rsplit('/').next()` is the slice after the last `/`.
   =================================================================== -/

/-- Core error cases reached by the embedded functions (`CoreError` in
error.rs, restricted to the constructors the embedding can produce). -/
inductive CoreError where
  | hashMismatch (expected actual : String)
  | snapshotNotFound (id : String)
deriving DecidableEq

/-- Split a character list at the last occurrence of `/`, returning the
slices before and after it. -/
def splitAtLastSlash : List Char → Option (List Char × List Char)
  | [] => none
  | c :: cs =>
    match splitAtLastSlash cs with
    | some (u, r) => some (c :: u, r)
    | none => if c = '/' then some ([], cs) else none

/-- Filename chosen by `fetch_url`: `url.rsplit('/').next()`, that is the
text after the last slash, or the whole URL when it has no slash. -/
def fetchFilename (url : String) : String :=
  match splitAtLastSlash url.data with
  | some (_, after) => String.mk after
  | none => url

/-- Embedding of `BuildContext::fetch_url` after a completed download of
`body`: verify the SHA-256 of the file body against the required hash,
failing with `HashMismatch` carrying the requested and computed hashes. -/
def fetch_url (tempDir url sha256 : String) (body : List Nat) :
    Except CoreError String :=
  let download_path := tempDir ++ "/" ++ fetchFilename url
  let actual := sha256_hex body
  if actual ≠ sha256 then .error (.hashMismatch sha256 actual)
  else .ok download_path

/- ===================================================================
   Section 9: snapshot manager
   (src/crates/core/src/snapshot.rs, `SnapshotManager`).

   The snapshot store is modelled by `SnapState`: the parsed contents of
   the per-snapshot JSON files, the backup directories, and the parsed
   contents of `metadata.json`.  Host-filesystem effects of a rollback
   (file removal and restoration) act outside the store and are not part
   of the store state; their errors are collected, not propagated, exactly
   as in the source.  A second embedding maps the same functions to their
   trace of primitive filesystem operations, for the atomicity claim.
   =================================================================== -/

/-- Snapshot files recorded in a snapshot (`SnapshotFile` in snapshot.rs);
only the fields, no behaviour of the embedding depends on them. -/
structure SnapshotFile where
  path : List String
  hash : Option String
  target : Option (List String)
  derivation_hash : Option String
  mode : Option Nat
deriving DecidableEq

/-- A full snapshot document (`Snapshot` in snapshot.rs, restricted to the
fields the manager logic reads). -/
structure Snapshot where
  id : String
  created_at : Nat
  description : String
  files : List SnapshotFile
  derivationCount : Nat
deriving DecidableEq

/-- Summary entry of the metadata index (`SnapshotSummary`). -/
structure SnapshotSummary where
  id : String
  created_at : Nat
  description : String
  file_count : Nat
  derivation_count : Nat
deriving DecidableEq

/-- Conversion from a snapshot to its summary (`From<&Snapshot>`). -/
def summaryOf (s : Snapshot) : SnapshotSummary :=
  { id := s.id, created_at := s.created_at, description := s.description,
    file_count := s.files.length, derivation_count := s.derivationCount }

/-- Metadata index (`SnapshotMetadata`): format version, summaries in
creation order, and the current pointer. -/
structure SnapshotMetadata where
  version : Nat
  snapshots : List SnapshotSummary
  current : Option String
deriving DecidableEq

/-- Metadata produced by `SnapshotMetadata::default()` when the metadata
file is missing (all fields defaulted, version 0). -/
def metadataDefault : SnapshotMetadata :=
  { version := 0, snapshots := [], current := none }

/-- State of the snapshot store on disk: snapshot JSON files keyed by id,
backup directories under files/, and the metadata file if present. -/
structure SnapState where
  snapshotFiles : List (String × Snapshot)
  backupDirs : List String
  metadata : Option SnapshotMetadata
deriving DecidableEq

/-- Empty snapshot store: nothing on disk yet. -/
def emptySnapState : SnapState :=
  { snapshotFiles := [], backupDirs := [], metadata := none }

/-- Whether the JSON file of snapshot `id` exists. -/
def hasSnapshotFile (s : SnapState) (id : String) : Prop :=
  id ∈ s.snapshotFiles.map Prod.fst

instance (s : SnapState) (id : String) : Decidable (hasSnapshotFile s id) := by
  unfold hasSnapshotFile; infer_instance

/-- Embedding of `SnapshotManager::load_metadata`: the parsed metadata
file, or the default metadata when the file is missing. -/
def load_metadata (s : SnapState) : SnapshotMetadata :=
  s.metadata.getD metadataDefault

/-- Embedding of `SnapshotManager::init`: directories are ensured, and the
metadata file is created (version 1, no snapshots, no current) only when
it does not exist yet. -/
def snapInit (s : SnapState) : SnapState :=
  if s.metadata.isSome then s
  else { s with metadata := some { version := 1, snapshots := [], current := none } }

/-- Overwrite or create the JSON file of a snapshot (`fs::write`). -/
def writeSnapshotFile (s : SnapState) (snap : Snapshot) : SnapState :=
  { s with snapshotFiles :=
      (snap.id, snap) :: s.snapshotFiles.filter (fun e => !(e.1 == snap.id)) }

/-- Embedding of `SnapshotManager::create_snapshot`: init, write the
snapshot file, then append its summary to the metadata and point
`current` at it. -/
def create_snapshot (s : SnapState) (snap : Snapshot) : SnapState × String :=
  let s1 := snapInit s
  let s2 := writeSnapshotFile s1 snap
  let md := load_metadata s2
  let md2 := { md with snapshots := md.snapshots ++ [summaryOf snap],
                       current := some snap.id }
  ({ s2 with metadata := some md2 }, snap.id)

/-- Embedding of `SnapshotManager::delete_snapshot`: requires the snapshot
file to exist; removes the file and its backups, drops the summary, and
if the deleted snapshot was current, points `current` at the last
remaining summary. -/
def delete_snapshot (s : SnapState) (id : String) : Except CoreError SnapState :=
  if ¬ hasSnapshotFile s id then .error (.snapshotNotFound id)
  else
    let s1 := { s with
      snapshotFiles := s.snapshotFiles.filter (fun e => !(e.1 == id)),
      backupDirs := s.backupDirs.filter (fun d => !(d == id)) }
    let md := load_metadata s1
    let snapshots := md.snapshots.filter (fun x => !(x.id == id))
    let current :=
      if md.current = some id then (snapshots.getLast?).map (fun x => x.id)
      else md.current
    .ok { s1 with metadata := some { md with snapshots := snapshots, current := current } }

/-- Embedding of `SnapshotManager::rollback_to`, restricted to the store
state: the target snapshot must exist (`get_snapshot`), the current
snapshot is loaded if a current pointer is set (`get_current_snapshot`
fails if its file is gone), host files are restored with errors collected
but never propagated, and finally `current` is pointed at the target. -/
def rollback_to (s : SnapState) (targetId : String) : Except CoreError SnapState :=
  if ¬ hasSnapshotFile s targetId then .error (.snapshotNotFound targetId)
  else
    let md := load_metadata s
    match md.current with
    | some c =>
      if ¬ hasSnapshotFile s c then .error (.snapshotNotFound c)
      else .ok { s with metadata := some { md with current := some targetId } }
    | none => .ok { s with metadata := some { md with current := some targetId } }

/-- Embedding of `SnapshotManager::get_previous_snapshot_id` as a function
of the loaded metadata: `None` with fewer than two snapshots; with the
current snapshot found at a positive position, the summary just before
it; otherwise the last summary. -/
def get_previous_snapshot_id (md : SnapshotMetadata) : Option String :=
  if md.snapshots.length < 2 then none
  else
    match md.snapshots.findIdx? (fun x => md.current == some x.id) with
    | some (idx + 1) => (md.snapshots.get? idx).map (fun x => x.id)
    | _ => md.snapshots.getLast?.map (fun x => x.id)

/-- Operations of the snapshot store considered by the invariant claim. -/
inductive SnapOp where
  | init
  | create (snap : Snapshot)
  | delete (id : String)
  | rollback (id : String)

/-- Apply one operation; an operation that returns an error leaves the
store unchanged (every state mutation of the source happens after its
existence checks). -/
def applySnapOp (s : SnapState) : SnapOp → SnapState
  | .init => snapInit s
  | .create snap => (create_snapshot s snap).1
  | .delete id =>
    match delete_snapshot s id with
    | .ok s2 => s2
    | .error _ => s
  | .rollback id =>
    match rollback_to s id with
    | .ok s2 => s2
    | .error _ => s

/-- Run a sequence of snapshot-store operations. -/
def runSnapOps (s : SnapState) (ops : List SnapOp) : SnapState :=
  ops.foldl applySnapOp s

/-- Store invariant of the snapshot claim: every summary in the metadata
has an existing snapshot file, and the current pointer, when set, names a
snapshot whose file exists. -/
def SnapInv (s : SnapState) : Prop :=
  (∀ sum ∈ (load_metadata s).snapshots, hasSnapshotFile s sum.id) ∧
  (∀ c, (load_metadata s).current = some c → hasSnapshotFile s c)

/- ===================================================================
   Section 10: filesystem operation traces of the snapshot manager
   (src/crates/core/src/snapshot.rs, `save_metadata`, `init`,
   `create_snapshot`).

   Each function is mapped to the ordered list of primitive filesystem
   operations it performs on the snapshot directory, read straight off
   the source.  Paths are relative to the snapshots directory.
   =================================================================== -/

/-- Primitive filesystem operations on the snapshot directory. -/
inductive SnapFsEvent where
  | createDir (path : String)
  | write (path : String)
  | rename (src dst : String)
deriving DecidableEq

/-- Whether an event is a rename. -/
def isRename : SnapFsEvent → Bool
  | .rename _ _ => true
  | _ => false

/-- Whether an event writes the metadata file (which holds the `current`
pointer). -/
def isMetadataWrite : SnapFsEvent → Bool
  | .write p => p == "metadata.json"
  | _ => false

/-- Trace of `save_metadata`: a single direct `fs::write` of the metadata
file. -/
def save_metadata_trace : List SnapFsEvent := [.write "metadata.json"]

/-- Trace of `init`: ensure both directories, then create the metadata
file only when it does not exist. -/
def init_trace (metadataExists : Bool) : List SnapFsEvent :=
  [.createDir "", .createDir "files"] ++
    (if metadataExists then [] else save_metadata_trace)

/-- Trace of `create_snapshot`: init, write the snapshot JSON file, update
the metadata. -/
def create_snapshot_trace (metadataExists : Bool) (id : String) : List SnapFsEvent :=
  init_trace metadataExists ++ [.write (id ++ ".json")] ++ save_metadata_trace

/- ===================================================================
   Theorems.  Helper lemmas come first, then one theorem per claim
   (C1 to C10), each with its witness where the statement carries
   hypotheses.
   =================================================================== -/

theorem envLookup_append (a b : List (String × String)) (k : String) :
    envLookup (a ++ b) k = ((envLookup b k).orElse (fun _ => envLookup a k)) := by
  unfold envLookup
  rw [List.reverse_append, List.find?_append]
  cases h : b.reverse.find? (fun e => e.1 == k) <;> simp [Option.orElse]

theorem envLookup_executeCmdEnv (user : List (String × String)) (outDir k : String) :
    envLookup (executeCmdEnv (some user) outDir) k =
      ((envLookup user k).orElse (fun _ => envLookup (sandboxEnv outDir) k)) := by
  unfold executeCmdEnv
  simpa using envLookup_append (sandboxEnv outDir) user k

/-- C1: `execute_cmd` builds the child environment by clearing it and
applying the sandbox bindings — PATH is the `/path-not-set` sentinel, HOME
the `/homeless-shelter` sentinel, TMPDIR/TMP/TEMP/TEMPDIR the per-build
scratch tmp directory, `out` the output directory, LANG and LC_ALL are C,
SOURCE_DATE_EPOCH is 315532800 — and merging the caller-supplied entries
last, so a user binding overrides the sandbox default of the same name,
while a variable set by neither stays absent. -/
theorem c1_execute_cmd_sandbox_env (user : List (String × String)) (outDir : String) :
    (envLookup user "PATH" = none →
      envLookup (executeCmdEnv (some user) outDir) "PATH" = some "/path-not-set") ∧
    (envLookup user "HOME" = none →
      envLookup (executeCmdEnv (some user) outDir) "HOME" = some "/homeless-shelter") ∧
    (envLookup user "TMPDIR" = none →
      envLookup (executeCmdEnv (some user) outDir) "TMPDIR" = some (sandboxTmpDir outDir)) ∧
    (envLookup user "TMP" = none →
      envLookup (executeCmdEnv (some user) outDir) "TMP" = some (sandboxTmpDir outDir)) ∧
    (envLookup user "TEMP" = none →
      envLookup (executeCmdEnv (some user) outDir) "TEMP" = some (sandboxTmpDir outDir)) ∧
    (envLookup user "TEMPDIR" = none →
      envLookup (executeCmdEnv (some user) outDir) "TEMPDIR" = some (sandboxTmpDir outDir)) ∧
    (envLookup user "out" = none →
      envLookup (executeCmdEnv (some user) outDir) "out" = some outDir) ∧
    (envLookup user "LANG" = none →
      envLookup (executeCmdEnv (some user) outDir) "LANG" = some "C") ∧
    (envLookup user "LC_ALL" = none →
      envLookup (executeCmdEnv (some user) outDir) "LC_ALL" = some "C") ∧
    (envLookup user "SOURCE_DATE_EPOCH" = none →
      envLookup (executeCmdEnv (some user) outDir) "SOURCE_DATE_EPOCH" = some "315532800") ∧
    (∀ k v, envLookup user k = some v →
      envLookup (executeCmdEnv (some user) outDir) k = some v) ∧
    (∀ k, envLookup user k = none → envLookup (sandboxEnv outDir) k = none →
      envLookup (executeCmdEnv (some user) outDir) k = none) := by
  refine ⟨fun h => ?_, fun h => ?_, fun h => ?_, fun h => ?_, fun h => ?_, fun h => ?_,
          fun h => ?_, fun h => ?_, fun h => ?_, fun h => ?_,
          fun k v hv => ?_, fun k hu hs => ?_⟩
  · rw [envLookup_executeCmdEnv, h]; rfl
  · rw [envLookup_executeCmdEnv, h]; rfl
  · rw [envLookup_executeCmdEnv, h]; rfl
  · rw [envLookup_executeCmdEnv, h]; rfl
  · rw [envLookup_executeCmdEnv, h]; rfl
  · rw [envLookup_executeCmdEnv, h]; rfl
  · rw [envLookup_executeCmdEnv, h]; rfl
  · rw [envLookup_executeCmdEnv, h]; rfl
  · rw [envLookup_executeCmdEnv, h]; rfl
  · rw [envLookup_executeCmdEnv, h]; rfl
  · rw [envLookup_executeCmdEnv, hv]; rfl
  · rw [envLookup_executeCmdEnv, hu, hs]; rfl

/-- Witness for C1 at a concrete user environment and output directory:
the user PATH overrides the sandbox sentinel, and with no user binding the
sentinel, scratch directory and reproducibility epoch remain. -/
theorem c1_execute_cmd_sandbox_env_witness :
    envLookup (executeCmdEnv (some [("PATH", "/usr/bin")]) "/build/out") "PATH" =
      some "/usr/bin" ∧
    envLookup (executeCmdEnv (some [("PATH", "/usr/bin")]) "/build/out") "HOME" =
      some "/homeless-shelter" ∧
    envLookup (executeCmdEnv (some [("PATH", "/usr/bin")]) "/build/out") "TMPDIR" =
      some "/build/out/tmp" ∧
    envLookup (executeCmdEnv (some [("PATH", "/usr/bin")]) "/build/out") "SOURCE_DATE_EPOCH" =
      some "315532800" ∧
    envLookup (executeCmdEnv (some [("PATH", "/usr/bin")]) "/build/out") "LD_PRELOAD" =
      none := by
  have h := c1_execute_cmd_sandbox_env [("PATH", "/usr/bin")] "/build/out"
  refine ⟨h.2.2.2.2.2.2.2.2.2.2.1 "PATH" "/usr/bin" (by rfl),
          h.2.1 (by rfl), ?_, ?_, ?_⟩
  · have := h.2.2.1 (by rfl)
    simpa [sandboxTmpDir] using this
  · exact h.2.2.2.2.2.2.2.2.2.1 (by rfl)
  · exact h.2.2.2.2.2.2.2.2.2.2.2 "LD_PRELOAD" (by rfl) (by rfl)

/-- C4: after a completed download, `fetch_url` returns the local file
path (the scratch directory joined with the final URL segment) exactly
when the SHA-256 of the downloaded body equals the required hash, and
otherwise fails with `HashMismatch` whose `expected` field is the
requested hash and whose `actual` field is the computed hash; the hash
argument is a mandatory parameter of the function. -/
theorem c4_fetch_url_hash_check (tempDir url sha256 : String) (body : List Nat) :
    (sha256_hex body = sha256 →
      fetch_url tempDir url sha256 body = .ok (tempDir ++ "/" ++ fetchFilename url)) ∧
    (sha256_hex body ≠ sha256 →
      fetch_url tempDir url sha256 body =
        .error (.hashMismatch sha256 (sha256_hex body))) := by
  constructor
  · intro h; simp [fetch_url, h]
  · intro h; simp [fetch_url, h]

set_option maxRecDepth 100000 in
/-- Witness for C4, using the SHA-256 test vector recorded in the unit
tests of store.rs: the body `hello` passes verification against its known
digest and the returned path is the scratch path of the URL filename,
while verification against a different digest fails with the mismatch
pair. -/
theorem c4_fetch_url_hash_check_witness :
    fetch_url "/tmp/build" "https://example.com/dl/hello.txt"
        "2cf24dba5fb0a30e26e83b2ac5b9e29e1b161e5c1fa7425e73043362938b9824"
        (utf8Bytes "hello".data) =
      .ok "/tmp/build/hello.txt" ∧
    fetch_url "/tmp/build" "https://example.com/dl/hello.txt"
        "0000000000000000000000000000000000000000000000000000000000000000"
        (utf8Bytes "hello".data) =
      .error (.hashMismatch
        "0000000000000000000000000000000000000000000000000000000000000000"
        "2cf24dba5fb0a30e26e83b2ac5b9e29e1b161e5c1fa7425e73043362938b9824") := by
  constructor
  · have h := (c4_fetch_url_hash_check "/tmp/build" "https://example.com/dl/hello.txt"
      "2cf24dba5fb0a30e26e83b2ac5b9e29e1b161e5c1fa7425e73043362938b9824"
      (utf8Bytes "hello".data)).1 (by decide)
    simpa [fetchFilename] using h
  · have h := (c4_fetch_url_hash_check "/tmp/build" "https://example.com/dl/hello.txt"
      "0000000000000000000000000000000000000000000000000000000000000000"
      (utf8Bytes "hello".data)).2 (by decide)
    have hv : sha256_hex (utf8Bytes "hello".data) =
        "2cf24dba5fb0a30e26e83b2ac5b9e29e1b161e5c1fa7425e73043362938b9824" := by decide
    rw [hv] at h
    simpa [fetchFilename] using h

/-- C8: `LockFile::load` fails exactly when the lock file exists but does
not parse, or parses with a recorded schema version greater than the
supported version 1; a missing lock file loads as a fresh lock file with
the current version and no inputs. -/
theorem c8_lock_file_load (disk : LockFileOnDisk) :
    ((∃ e, lockFileLoad disk = .error e) ↔
      (disk = .unparsable ∨
        ∃ d, disk = .parsed d ∧ d.version > LOCK_FILE_VERSION)) ∧
    lockFileLoad .missing = .ok { version := 1, inputs := [] } := by
  constructor
  · constructor
    · rintro ⟨e, he⟩
      cases disk with
      | missing => simp [lockFileLoad, lockFileNew] at he
      | unparsable => exact Or.inl rfl
      | parsed d =>
        refine Or.inr ⟨d, rfl, ?_⟩
        by_contra hv
        simp [lockFileLoad, hv] at he
    · rintro (rfl | ⟨d, rfl, hv⟩)
      · exact ⟨.parseFailed, rfl⟩
      · exact ⟨.versionTooNew d.version, by simp [lockFileLoad, hv]⟩
  · rfl

/-- Witness for C8 at concrete disk states: a parsed lock file with
version 2 fails, a parsed lock file with version 1 loads, and a missing
file loads as the fresh empty lock file. -/
theorem c8_lock_file_load_witness :
    (∃ e, lockFileLoad (.parsed { version := 2, inputs := [] }) = .error e) ∧
    lockFileLoad (.parsed { version := 1, inputs := [] }) =
      .ok { version := 1, inputs := [] } ∧
    lockFileLoad .missing = .ok { version := 1, inputs := [] } := by
  refine ⟨?_, by rfl, (c8_lock_file_load .missing).2⟩
  exact (c8_lock_file_load (.parsed { version := 2, inputs := [] })).1.2
    (Or.inr ⟨_, rfl, by decide⟩)

/-- C10: `get_previous_snapshot_id` returns nothing when the metadata
lists fewer than two snapshots; with at least two, it returns the id of
the summary immediately before the current one when the current snapshot
sits at a positive position in creation order, and returns the id of the
most recently created snapshot when the current pointer is unset or the
current snapshot is the oldest entry. -/
theorem c10_get_previous_snapshot_id (md : SnapshotMetadata) :
    (md.snapshots.length < 2 → get_previous_snapshot_id md = none) ∧
    (2 ≤ md.snapshots.length →
      ∀ idx, md.snapshots.findIdx? (fun x => md.current == some x.id) = some (idx + 1) →
        get_previous_snapshot_id md = (md.snapshots.get? idx).map (fun x => x.id)) ∧
    (2 ≤ md.snapshots.length →
      md.snapshots.findIdx? (fun x => md.current == some x.id) = some 0 →
        get_previous_snapshot_id md = md.snapshots.getLast?.map (fun x => x.id)) ∧
    (2 ≤ md.snapshots.length → md.current = none →
      get_previous_snapshot_id md = md.snapshots.getLast?.map (fun x => x.id)) := by
  refine ⟨?_, ?_, ?_, ?_⟩
  · intro h; simp [get_previous_snapshot_id, h]
  · intro h idx hidx
    simp [get_previous_snapshot_id, Nat.not_lt.mpr h, hidx]
  · intro h hidx
    simp [get_previous_snapshot_id, Nat.not_lt.mpr h, hidx]
  · intro h hcur
    have hnone : md.snapshots.findIdx? (fun x => md.current == some x.id) = none := by
      rw [List.findIdx?_eq_none_iff]
      intro x _
      simp [hcur]
    simp [get_previous_snapshot_id, Nat.not_lt.mpr h, hnone]

/-- Witness for C10 at a concrete metadata index of three snapshots: with
the current pointer at the middle entry the previous id is the first, with
it at the oldest entry the most recent id is returned, with it unset the
most recent id is returned, and a single-snapshot index yields nothing. -/
theorem c10_get_previous_snapshot_id_witness :
    get_previous_snapshot_id
      { version := 1,
        snapshots := [{ id := "a", created_at := 1, description := "", file_count := 0,
                        derivation_count := 0 },
                      { id := "b", created_at := 2, description := "", file_count := 0,
                        derivation_count := 0 },
                      { id := "c", created_at := 3, description := "", file_count := 0,
                        derivation_count := 0 }],
        current := some "b" } = some "a" ∧
    get_previous_snapshot_id
      { version := 1,
        snapshots := [{ id := "a", created_at := 1, description := "", file_count := 0,
                        derivation_count := 0 },
                      { id := "b", created_at := 2, description := "", file_count := 0,
                        derivation_count := 0 }],
        current := some "a" } = some "b" ∧
    get_previous_snapshot_id
      { version := 1,
        snapshots := [{ id := "a", created_at := 1, description := "", file_count := 0,
                        derivation_count := 0 },
                      { id := "b", created_at := 2, description := "", file_count := 0,
                        derivation_count := 0 }],
        current := none } = some "b" ∧
    get_previous_snapshot_id
      { version := 1,
        snapshots := [{ id := "a", created_at := 1, description := "", file_count := 0,
                        derivation_count := 0 }],
        current := some "a" } = none := by
  refine ⟨?_, ?_, ?_, ?_⟩
  · exact (c10_get_previous_snapshot_id _).2.1 (by decide) 0 (by decide)
  · exact (c10_get_previous_snapshot_id _).2.2.1 (by decide) (by decide)
  · exact (c10_get_previous_snapshot_id _).2.2.2 (by decide) rfl
  · exact (c10_get_previous_snapshot_id _).1 (by decide)

theorem truncate_hash_eq_take (hash : List Char) :
    truncate_hash hash = hash.take HASH_TRUNCATE_LEN := by
  unfold truncate_hash
  split
  · rfl
  · next h =>
    rw [List.take_of_length_le]
    unfold HASH_TRUNCATE_LEN at h ⊢
    omega

/-- C3: counterexample to the claim that store object directory names
embed the first 20 hex characters of the object hash: for a concrete
64-character SHA-256 hash, `Store::object_path` in the core crate embeds
the first 9 characters, not the first 20. -/
theorem c3_store_name_counterexample :
    object_dir_name "my-config".data none
        "0123456789abcdef0123456789abcdef0123456789abcdef0123456789abcdef".data ≠
      "my-config-".data ++
        "0123456789abcdef0123456789abcdef0123456789abcdef0123456789abcdef".data.take 20 ∧
    object_dir_name "my-config".data none
        "0123456789abcdef0123456789abcdef0123456789abcdef0123456789abcdef".data =
      "my-config-".data ++
        "0123456789abcdef0123456789abcdef0123456789abcdef0123456789abcdef".data.take 9 := by
  constructor
  · decide
  · decide

/-- C3 amended: directory names under `obj/` in the core crate embed the
first `HASH_TRUNCATE_LEN = 9` characters of the hash (the whole hash when
it is shorter), while `build_dir_name` in the lib crate embeds the stored
`BuildHash` string without truncating it. -/
theorem c3_store_name_amended (root name v hash : List Char) :
    truncate_hash hash = hash.take 9 ∧
    object_dir_name name (some v) hash = name ++ '-' :: v ++ '-' :: hash.take 9 ∧
    object_dir_name name none hash = name ++ '-' :: hash.take 9 ∧
    object_path root name none hash =
      root ++ "/obj/".data ++ name ++ '-' :: hash.take 9 ∧
    lib_build_dir_name name (some v) hash = name ++ '-' :: v ++ '-' :: hash ∧
    lib_build_dir_name name none hash = name ++ '-' :: hash := by
  have ht : truncate_hash hash = hash.take 9 := truncate_hash_eq_take hash
  exact ⟨ht, by simp [object_dir_name, ht], by simp [object_dir_name, ht],
    by simp [object_path, object_dir_name, ht], rfl, rfl⟩

/-- C9: counterexample to the claim that a WriteFile action applies its
optional mode on POSIX: `execute_write_file` takes no mode argument, so
executing the action of path `out/f.txt`, content `hi` and requested mode
`0o755` (493) leaves the written file at the default mode, which differs
from the specified behaviour that applies the mode. -/
theorem c9_write_file_counterexample :
    fsGetFile (execute_write_file { files := [], dirs := [] } ["out", "f.txt"] "hi")
        ["out", "f.txt"] = some { content := "hi", mode := none } ∧
    fsGetFile (writeFileSpecClaim { files := [], dirs := [] } ["out", "f.txt"] "hi"
        (some 493)) ["out", "f.txt"] = some { content := "hi", mode := some 493 } ∧
    fsGetFile (execute_write_file { files := [], dirs := [] } ["out", "f.txt"] "hi")
        ["out", "f.txt"] ≠
      fsGetFile (writeFileSpecClaim { files := [], dirs := [] } ["out", "f.txt"] "hi"
        (some 493)) ["out", "f.txt"] := by
  refine ⟨by decide, by decide, by decide⟩

/-- C9 amended: `execute_write_file` creates every intermediate parent
directory of the path and writes the literal content there; the action
carries no mode, so a file it creates is left at the default mode on every
platform. -/
theorem c9_write_file_amended (fs : Fs) (path : List String) (content : String)
    (hne : path ≠ []) :
    ((fsGetFile (execute_write_file fs path content) path).map
      (fun e => e.content) = some content) ∧
    (fsGetFile fs path = none →
      fsGetFile (execute_write_file fs path content) path =
        some { content := content, mode := none }) ∧
    (∀ d ∈ path.dropLast.inits, d ≠ [] →
      d ∈ (execute_write_file fs path content).dirs) := by
  have hget : ∀ fs1 : Fs, fsGetFile (fsWrite fs1 path content) path =
      some { content := content,
             mode := match fsGetFile fs1 path with
                     | some e => e.mode
                     | none => none } := by
    intro fs1
    unfold fsGetFile fsWrite
    rw [List.find?_cons_of_pos _ (by simp)]
    rfl
  have hsame : fsGetFile (fsCreateDirAll fs path.dropLast) path = fsGetFile fs path := rfl
  refine ⟨?_, ?_, ?_⟩
  · simp only [execute_write_file, if_neg hne]
    rw [hget]
    rfl
  · intro hnone
    simp only [execute_write_file, if_neg hne]
    rw [hget, hsame, hnone]
  · intro d hd hdne
    simp only [execute_write_file, if_neg hne]
    show d ∈ (fsCreateDirAll fs path.dropLast).dirs
    unfold fsCreateDirAll
    simp only [List.mem_append, List.mem_filter]
    exact Or.inl ⟨hd, by simpa using hdne⟩

/-- Witness for C9 amended at a concrete filesystem: the file is written
with its content at the default mode and the parent directory is
created. -/
theorem c9_write_file_amended_witness :
    fsGetFile (execute_write_file { files := [], dirs := [] } ["a", "b", "c.txt"] "data")
        ["a", "b", "c.txt"] = some { content := "data", mode := none } ∧
    ["a", "b"] ∈ (execute_write_file { files := [], dirs := [] } ["a", "b", "c.txt"]
        "data").dirs := by
  have h := c9_write_file_amended { files := [], dirs := [] } ["a", "b", "c.txt"] "data"
    (by decide)
  exact ⟨h.2.1 (by decide), h.2.2 ["a", "b"] (by decide) (by decide)⟩

/-- C6: counterexample to the claim that every change of the snapshot
store current pointer happens by writing a temporary file and renaming it
over the final path: the trace of `create_snapshot` (which moves the
current pointer) writes `metadata.json` directly and contains no rename at
all. -/
theorem c6_current_pointer_counterexample :
    SnapFsEvent.write "metadata.json" ∈ create_snapshot_trace true "123" ∧
    (create_snapshot_trace true "123").all (fun e => !(isRename e)) = true := by
  refine ⟨by decide, by decide⟩

/-- C6 amended: `save_metadata` rewrites `metadata.json` with a single
direct write and no rename; within `create_snapshot` the snapshot JSON
file is written strictly before that single metadata write, so any crash
prefix of the trace that stops before the final event leaves the previous
metadata — and with it the previously current snapshot — in place. -/
theorem c6_current_pointer_amended (id : String) (k : Nat)
    (hid : id ++ ".json" ≠ "metadata.json")
    (hk : k < (create_snapshot_trace true id).length) :
    ((create_snapshot_trace true id).take k).all (fun e => !(isMetadataWrite e)) = true ∧
    (create_snapshot_trace true id).getLast? = some (.write "metadata.json") ∧
    SnapFsEvent.write (id ++ ".json") ∈ (create_snapshot_trace true id).dropLast := by
  have hk4 : k < 4 := by
    simpa [create_snapshot_trace, init_trace, save_metadata_trace] using hk
  refine ⟨?_, by rfl, by simp [create_snapshot_trace, init_trace, save_metadata_trace]⟩
  interval_cases k <;>
    simp [create_snapshot_trace, init_trace, save_metadata_trace, isMetadataWrite, hid]

/-- Witness for C6 amended at the snapshot id 123 and the longest crash
prefix: the three events before the metadata write touch only directories
and the snapshot file. -/
theorem c6_current_pointer_amended_witness :
    ((create_snapshot_trace true "123").take 3).all
      (fun e => !(isMetadataWrite e)) = true ∧
    (create_snapshot_trace true "123").getLast? = some (.write "metadata.json") ∧
    SnapFsEvent.write "123.json" ∈ (create_snapshot_trace true "123").dropLast := by
  have h := c6_current_pointer_amended "123" 3 (by decide) (by decide)
  exact ⟨h.1, h.2.1, h.2.2⟩

theorem splitAtLastHash_eq_none_iff (cs : List Char) :
    splitAtLastHash cs = none ↔ '#' ∉ cs := by
  induction cs with
  | nil => simp [splitAtLastHash]
  | cons c cs ih =>
    simp only [splitAtLastHash]
    cases h : splitAtLastHash cs with
    | some p =>
      have : '#' ∈ cs := by
        by_contra hmem
        rw [ih.mpr hmem] at h
        exact Option.noConfusion h
      simp [List.mem_cons, this]
    | none =>
      have hmem : '#' ∉ cs := ih.mp h
      by_cases hc : c = '#'
      · simp [hc]
      · simp [hc, hmem, Ne.symm hc]

theorem splitAtLastHash_append (u r : List Char) (hr : '#' ∉ r) :
    splitAtLastHash (u ++ '#' :: r) = some (u, r) := by
  induction u with
  | nil => simp [splitAtLastHash, (splitAtLastHash_eq_none_iff r).mpr hr]
  | cons c u ih => simp [splitAtLastHash, ih]

theorem parseInputSource_git (s : List Char) :
    parseInputSource (gitSchemeTag ++ s) =
      (if s = [] then .error .missingGitUrl
       else
         match splitAtLastHash s with
         | some (u, r) =>
           if u = [] then .error .missingGitUrl
           else if r = [] then .error .emptyGitRef
           else .ok (.git u (some r))
         | none => .ok (.git s none)) := rfl

theorem parseInputSource_path (p : List Char) :
    parseInputSource (pathSchemeTag ++ p) =
      (if p = [] then .error .missingPath else .ok (.path p)) := rfl

/-- C7: `parse` returns a Git source with no revision for `git:` inputs
without a hash mark, a Git source with the revision cut at the last hash
mark for `git:` inputs with one, and a Path source for `path:` inputs;
it fails with a parse error on an empty git URL, an empty revision after
the hash mark, an empty path, and on every string carrying neither
scheme. -/
theorem c7_parse_input_source :
    (∀ s : List Char, s ≠ [] → '#' ∉ s →
      parseInputSource (gitSchemeTag ++ s) = .ok (.git s none)) ∧
    (∀ u r : List Char, u ≠ [] → r ≠ [] → '#' ∉ r →
      parseInputSource (gitSchemeTag ++ (u ++ '#' :: r)) = .ok (.git u (some r))) ∧
    (parseInputSource gitSchemeTag = .error .missingGitUrl) ∧
    (∀ r : List Char, '#' ∉ r →
      parseInputSource (gitSchemeTag ++ '#' :: r) = .error .missingGitUrl) ∧
    (∀ u : List Char, u ≠ [] →
      parseInputSource (gitSchemeTag ++ (u ++ ['#'])) = .error .emptyGitRef) ∧
    (parseInputSource pathSchemeTag = .error .missingPath) ∧
    (∀ p : List Char, p ≠ [] →
      parseInputSource (pathSchemeTag ++ p) = .ok (.path p)) ∧
    (∀ s : List Char, s.take 4 ≠ gitSchemeTag → s.take 5 ≠ pathSchemeTag →
      parseInputSource s = .error (.unknownScheme (s.takeWhile (fun c => c ≠ ':')))) := by
  refine ⟨?_, ?_, by rfl, ?_, ?_, by rfl, ?_, ?_⟩
  · intro s hne hmem
    rw [parseInputSource_git, if_neg hne, (splitAtLastHash_eq_none_iff s).mpr hmem]
  · intro u r hu hr hmem
    rw [parseInputSource_git, if_neg (by simp), splitAtLastHash_append u r hmem]
    simp [hu, hr]
  · intro r hmem
    rw [parseInputSource_git, if_neg (by simp)]
    have h := splitAtLastHash_append [] r hmem
    simp only [List.nil_append] at h
    rw [h]
    simp
  · intro u hu
    rw [parseInputSource_git, if_neg (by simp),
      splitAtLastHash_append u [] (by simp)]
    simp [hu]
  · intro p hne
    rw [parseInputSource_path, if_neg hne]
  · intro s h4 h5
    unfold parseInputSource
    rw [if_neg h4, if_neg h5]

/-- Witness for C7 at concrete inputs: a git URL without revision, a git
URL with a revision after the last hash mark, a path input, and the four
error shapes. -/
theorem c7_parse_input_source_witness :
    parseInputSource (gitSchemeTag ++ "https://h/r.git".data) =
      .ok (.git "https://h/r.git".data none) ∧
    parseInputSource (gitSchemeTag ++ ("git@h:o/r.git".data ++ '#' :: "v1.0".data)) =
      .ok (.git "git@h:o/r.git".data (some "v1.0".data)) ∧
    parseInputSource (gitSchemeTag ++ ("u".data ++ ['#'])) = .error .emptyGitRef ∧
    parseInputSource (gitSchemeTag ++ '#' :: "v".data) = .error .missingGitUrl ∧
    parseInputSource (pathSchemeTag ++ "~/dotfiles".data) =
      .ok (.path "~/dotfiles".data) ∧
    parseInputSource "just-a-string".data =
      .error (.unknownScheme "just-a-string".data) := by
  obtain ⟨h1, h2, _, h4, h5, _, h7, h8⟩ := c7_parse_input_source
  refine ⟨h1 _ (by decide) (by decide), h2 _ _ (by decide) (by decide) (by decide),
          h5 _ (by decide), h4 _ (by decide), h7 _ (by decide), ?_⟩
  have h := h8 "just-a-string".data (by decide) (by decide)
  simpa using h

theorem mem_of_getLast?_eq_some {α : Type} {l : List α} {a : α}
    (h : l.getLast? = some a) : a ∈ l := by
  induction l with
  | nil => simp at h
  | cons x xs ih =>
    cases xs with
    | nil => simp_all
    | cons y ys =>
      rw [List.getLast?_cons_cons] at h
      exact List.mem_cons_of_mem x (ih h)

theorem hasFile_snapInit (s : SnapState) (x : String) :
    hasSnapshotFile (snapInit s) x ↔ hasSnapshotFile s x := by
  unfold snapInit
  split <;> rfl

theorem hasFile_writeSnapshotFile (s : SnapState) (snap : Snapshot) (x : String) :
    hasSnapshotFile (writeSnapshotFile s snap) x ↔ x = snap.id ∨ hasSnapshotFile s x := by
  simp only [hasSnapshotFile, writeSnapshotFile, List.map_cons, List.mem_cons]
  constructor
  · rintro (h | h)
    · exact Or.inl h
    · right
      rcases List.mem_map.mp h with ⟨e, he, rfl⟩
      exact List.mem_map.mpr ⟨e, (List.mem_filter.mp he).1, rfl⟩
  · rintro (h | h)
    · exact Or.inl h
    · by_cases hx : x = snap.id
      · exact Or.inl hx
      · right
        rcases List.mem_map.mp h with ⟨e, he, rfl⟩
        refine List.mem_map.mpr ⟨e, List.mem_filter.mpr ⟨he, ?_⟩, rfl⟩
        simpa using hx

theorem mem_map_fst_filter (files : List (String × Snapshot)) (id x : String) :
    x ∈ (files.filter (fun e => !(e.1 == id))).map Prod.fst ↔
      (x ∈ files.map Prod.fst ∧ x ≠ id) := by
  simp only [List.mem_map, List.mem_filter]
  constructor
  · rintro ⟨e, ⟨he, hne⟩, rfl⟩
    exact ⟨⟨e, he, rfl⟩, by simpa using hne⟩
  · rintro ⟨⟨e, he, rfl⟩, hne⟩
    exact ⟨e, ⟨he, by simpa using hne⟩, rfl⟩

theorem load_metadata_snapInit (s : SnapState) :
    (load_metadata (snapInit s)).snapshots = (load_metadata s).snapshots ∧
    (load_metadata (snapInit s)).current = (load_metadata s).current := by
  unfold snapInit load_metadata
  cases h : s.metadata <;> simp [h, metadataDefault]

theorem snapInv_applyOp (s : SnapState) (op : SnapOp) (hInv : SnapInv s) :
    SnapInv (applySnapOp s op) := by
  obtain ⟨hsums, hcur⟩ := hInv
  cases op with
  | init =>
    simp only [applySnapOp, snapInit]
    split
    · exact ⟨hsums, hcur⟩
    · constructor
      · intro sum hs
        simp [load_metadata] at hs
      · intro c hc
        simp [load_metadata] at hc
  | create snap =>
    constructor
    · intro sum hs
      have hs2 : sum ∈ (load_metadata (snapInit s)).snapshots ++ [summaryOf snap] := hs
      rw [List.mem_append] at hs2
      show hasSnapshotFile (writeSnapshotFile (snapInit s) snap) sum.id
      rw [hasFile_writeSnapshotFile, hasFile_snapInit]
      rcases hs2 with hs2 | hs2
      · rw [(load_metadata_snapInit s).1] at hs2
        exact Or.inr (hsums sum hs2)
      · simp only [List.mem_singleton] at hs2
        subst hs2
        exact Or.inl rfl
    · intro c hc
      have hc2 : (some snap.id : Option String) = some c := hc
      injection hc2 with hc2
      show hasSnapshotFile (writeSnapshotFile (snapInit s) snap) c
      rw [hasFile_writeSnapshotFile]
      exact Or.inl hc2.symm
  | delete id =>
    by_cases hf : hasSnapshotFile s id
    · have hd : delete_snapshot s id = .ok
        { snapshotFiles := s.snapshotFiles.filter (fun e => !(e.1 == id)),
          backupDirs := s.backupDirs.filter (fun d => !(d == id)),
          metadata := some
            { version := (load_metadata s).version,
              snapshots := (load_metadata s).snapshots.filter (fun x => !(x.id == id)),
              current :=
                if (load_metadata s).current = some id then
                  ((load_metadata s).snapshots.filter
                    (fun x => !(x.id == id))).getLast?.map (fun x => x.id)
                else (load_metadata s).current } } := by
        unfold delete_snapshot
        rw [if_neg (not_not_intro hf)]
        rfl
      simp only [applySnapOp]
      rw [hd]
      constructor
      · intro sum hs
        have hs2 : sum ∈ (load_metadata s).snapshots.filter (fun x => !(x.id == id)) := hs
        rw [List.mem_filter] at hs2
        obtain ⟨hmem, hne⟩ := hs2
        show sum.id ∈ (s.snapshotFiles.filter (fun e => !(e.1 == id))).map Prod.fst
        rw [mem_map_fst_filter]
        exact ⟨hsums sum hmem, by simpa using hne⟩
      · intro c hc
        have hc2 : (if (load_metadata s).current = some id then
            ((load_metadata s).snapshots.filter
              (fun x => !(x.id == id))).getLast?.map (fun x => x.id)
          else (load_metadata s).current) = some c := hc
        show c ∈ (s.snapshotFiles.filter (fun e => !(e.1 == id))).map Prod.fst
        rw [mem_map_fst_filter]
        by_cases hcurid : (load_metadata s).current = some id
        · rw [if_pos hcurid] at hc2
          rcases Option.map_eq_some'.mp hc2 with ⟨x, hx, rfl⟩
          have hxmem := mem_of_getLast?_eq_some hx
          rw [List.mem_filter] at hxmem
          obtain ⟨hmem, hne⟩ := hxmem
          exact ⟨hsums x hmem, by simpa using hne⟩
        · rw [if_neg hcurid] at hc2
          refine ⟨hcur c hc2, fun hceq => hcurid (hceq ▸ hc2)⟩
    · have happ : applySnapOp s (.delete id) = s := by
        simp only [applySnapOp, delete_snapshot, if_pos hf]
      rw [happ]
      exact ⟨hsums, hcur⟩
  | rollback id =>
    by_cases hf : hasSnapshotFile s id
    · cases hcu : (load_metadata s).current with
      | some c =>
        have hcf : hasSnapshotFile s c := hcur c hcu
        have hro : rollback_to s id = .ok
            { s with metadata := some { load_metadata s with current := some id } } := by
          simp only [rollback_to]
          rw [if_neg (not_not_intro hf), hcu]
          exact if_neg (not_not_intro hcf)
        simp only [applySnapOp]
        rw [hro]
        constructor
        · intro sum hs
          have hs2 : sum ∈ (load_metadata s).snapshots := hs
          show hasSnapshotFile s sum.id
          exact hsums sum hs2
        · intro c2 hc2
          have hc3 : (some id : Option String) = some c2 := hc2
          injection hc3 with hc3
          show hasSnapshotFile s c2
          rw [← hc3]
          exact hf
      | none =>
        have hro : rollback_to s id = .ok
            { s with metadata := some { load_metadata s with current := some id } } := by
          simp only [rollback_to]
          rw [if_neg (not_not_intro hf), hcu]
        simp only [applySnapOp]
        rw [hro]
        constructor
        · intro sum hs
          have hs2 : sum ∈ (load_metadata s).snapshots := hs
          show hasSnapshotFile s sum.id
          exact hsums sum hs2
        · intro c2 hc2
          have hc3 : (some id : Option String) = some c2 := hc2
          injection hc3 with hc3
          show hasSnapshotFile s c2
          rw [← hc3]
          exact hf
    · have happ : applySnapOp s (.rollback id) = s := by
        simp only [applySnapOp, rollback_to, if_pos hf]
      rw [happ]
      exact ⟨hsums, hcur⟩

theorem snapInv_runOps (s : SnapState) (ops : List SnapOp) (hInv : SnapInv s) :
    SnapInv (runSnapOps s ops) := by
  induction ops generalizing s with
  | nil => exact hInv
  | cons op ops ih => exact ih _ (snapInv_applyOp s op hInv)

/-- C5: starting from the empty snapshot store, any sequence of init,
create, delete and rollback operations preserves the invariant that every
metadata summary — and in particular the current pointer, when it is set —
names a snapshot whose JSON file exists; and a snapshot file can exist
while not being current, as after two consecutive creates. -/
theorem c5_snapshot_current_invariant :
    (∀ ops : List SnapOp, SnapInv (runSnapOps emptySnapState ops)) ∧
    hasSnapshotFile
      (runSnapOps emptySnapState
        [.create { id := "a", created_at := 1, description := "", files := [],
                   derivationCount := 0 },
         .create { id := "b", created_at := 2, description := "", files := [],
                   derivationCount := 0 }]) "a" ∧
    (load_metadata
      (runSnapOps emptySnapState
        [.create { id := "a", created_at := 1, description := "", files := [],
                   derivationCount := 0 },
         .create { id := "b", created_at := 2, description := "", files := [],
                   derivationCount := 0 }])).current = some "b" := by
  refine ⟨?_, by decide, by decide⟩
  intro ops
  refine snapInv_runOps emptySnapState ops ?_
  constructor
  · intro sum hs
    simp [load_metadata, emptySnapState, metadataDefault] at hs
  · intro c hc
    simp [load_metadata, emptySnapState, metadataDefault] at hc

/-- Witness for C5 along a concrete operation sequence with a delete and a
rollback: the invariant instance asserts the file of the snapshot the
current pointer names exists after the run. -/
theorem c5_snapshot_current_invariant_witness :
    hasSnapshotFile
      (runSnapOps emptySnapState
        [.create { id := "a", created_at := 1, description := "", files := [],
                   derivationCount := 0 },
         .create { id := "b", created_at := 2, description := "", files := [],
                   derivationCount := 0 },
         .rollback "a",
         .delete "a"]) "b" := by
  have h := c5_snapshot_current_invariant.1
    [.create { id := "a", created_at := 1, description := "", files := [],
               derivationCount := 0 },
     .create { id := "b", created_at := 2, description := "", files := [],
               derivationCount := 0 },
     .rollback "a",
     .delete "a"]
  exact h.2 "b" (by decide)

theorem string_data_inj {a b : String} (h : a.data = b.data) : a = b := by
  cases a
  cases b
  simp only at h
  rw [h]

theorem append_newline_split {a b c d : List Char} (ha : '\n' ∉ a) (hb : '\n' ∉ b)
    (h : a ++ '\n' :: c = b ++ '\n' :: d) : a = b ∧ c = d := by
  induction a generalizing b with
  | nil =>
    cases b with
    | nil => simpa using h
    | cons y ys =>
      simp only [List.nil_append, List.cons_append, List.cons.injEq] at h
      exact absurd (h.1 ▸ List.mem_cons_self y ys) hb
  | cons x xs ih =>
    cases b with
    | nil =>
      simp only [List.cons_append, List.nil_append, List.cons.injEq] at h
      exact absurd (h.1 ▸ List.mem_cons_self x xs) ha
    | cons y ys =>
      simp only [List.cons_append, List.cons.injEq] at h
      obtain ⟨hxy, htail⟩ := h
      have ha2 : '\n' ∉ xs := fun hm => ha (List.mem_cons_of_mem x hm)
      have hb2 : '\n' ∉ ys := fun hm => hb (List.mem_cons_of_mem y hm)
      obtain ⟨he, hcd⟩ := ih ha2 hb2 htail
      exact ⟨by rw [hxy, he], hcd⟩

theorem computeHashInput_shape (s : DerivationSpec) :
    computeHashInput s =
      "name:".data ++ (s.name.data ++ '\n' :: ("version:".data ++
        (versionEnc s.version ++ '\n' :: ("inputs:".data ++
          (inputsJson s.inputs ++ '\n' :: ("build:".data ++
            (s.build_hash.data ++ '\n' :: ("outputs:".data ++
              (joinComma s.outputs ++ '\n' :: ("system:".data ++
                systemJson s.system)))))))))) := by
  simp [computeHashInput, List.append_assoc]

/-- C2: counterexample to the claim that any change in the hashed fields
of a derivation specification changes the computed hash: two
specifications that differ in the version field — `None` against
`Some("")` — are encoded to the same pre-image by `compute_hash` (which
writes `version.as_deref().unwrap_or("")`) and therefore receive the
identical SHA-256 hash. -/
theorem c2_hash_sensitivity_counterexample :
    ({ name := "pkg", version := none, inputs := [], build_hash := "bh",
       outputs := ["out"],
       system := { platform := "x86_64-linux", os := "linux", arch := "x86_64",
                   hostname := "host", username := "user" } } : DerivationSpec).version ≠
      ({ name := "pkg", version := some "", inputs := [], build_hash := "bh",
         outputs := ["out"],
         system := { platform := "x86_64-linux", os := "linux", arch := "x86_64",
                     hostname := "host", username := "user" } } : DerivationSpec).version ∧
    compute_hash
      { name := "pkg", version := none, inputs := [], build_hash := "bh",
        outputs := ["out"],
        system := { platform := "x86_64-linux", os := "linux", arch := "x86_64",
                    hostname := "host", username := "user" } } =
    compute_hash
      { name := "pkg", version := some "", inputs := [], build_hash := "bh",
        outputs := ["out"],
        system := { platform := "x86_64-linux", os := "linux", arch := "x86_64",
                    hostname := "host", username := "user" } } := by
  constructor
  · decide
  · have h : computeHashInput
        { name := "pkg", version := none, inputs := [], build_hash := "bh",
          outputs := ["out"],
          system := { platform := "x86_64-linux", os := "linux", arch := "x86_64",
                      hostname := "host", username := "user" } } =
      computeHashInput
        { name := "pkg", version := some "", inputs := [], build_hash := "bh",
          outputs := ["out"],
          system := { platform := "x86_64-linux", os := "linux", arch := "x86_64",
                      hostname := "host", username := "user" } } := by decide
    show sha256_hex (utf8Bytes (computeHashInput _)) =
      sha256_hex (utf8Bytes (computeHashInput _))
    rw [h]

/-- C2 amended: the hash pre-image determines the field encodings — and
so any change to a field that changes its encoding changes the computed
hash, short of a SHA-256 collision — provided no encoded field contains a
newline; the encoding itself conflates a version of `None` with
`Some("")`, joins the output list by commas, and writes the inputs as
JSON, so field changes that preserve those encodings leave the hash
unchanged. -/
theorem c2_hash_sensitivity_amended (s1 s2 : DerivationSpec)
    (hn1 : '\n' ∉ s1.name.data) (hn2 : '\n' ∉ s2.name.data)
    (hv1 : '\n' ∉ versionEnc s1.version) (hv2 : '\n' ∉ versionEnc s2.version)
    (hi1 : '\n' ∉ inputsJson s1.inputs) (hi2 : '\n' ∉ inputsJson s2.inputs)
    (hb1 : '\n' ∉ s1.build_hash.data) (hb2 : '\n' ∉ s2.build_hash.data)
    (ho1 : '\n' ∉ joinComma s1.outputs) (ho2 : '\n' ∉ joinComma s2.outputs)
    (heq : computeHashInput s1 = computeHashInput s2) :
    s1.name = s2.name ∧
    versionEnc s1.version = versionEnc s2.version ∧
    inputsJson s1.inputs = inputsJson s2.inputs ∧
    s1.build_hash = s2.build_hash ∧
    joinComma s1.outputs = joinComma s2.outputs ∧
    systemJson s1.system = systemJson s2.system := by
  rw [computeHashInput_shape s1, computeHashInput_shape s2] at heq
  have h1 := List.append_cancel_left heq
  obtain ⟨hname, h2⟩ := append_newline_split hn1 hn2 h1
  have h3 := List.append_cancel_left h2
  obtain ⟨hver, h4⟩ := append_newline_split hv1 hv2 h3
  have h5 := List.append_cancel_left h4
  obtain ⟨hinp, h6⟩ := append_newline_split hi1 hi2 h5
  have h7 := List.append_cancel_left h6
  obtain ⟨hbld, h8⟩ := append_newline_split hb1 hb2 h7
  have h9 := List.append_cancel_left h8
  obtain ⟨hout, h10⟩ := append_newline_split ho1 ho2 h9
  have hsys := List.append_cancel_left h10
  exact ⟨string_data_inj hname, hver, hinp, string_data_inj hbld, hout, hsys⟩

/-- Witness for C2 amended at two concrete specifications that differ only
in their build-function hash: the hypotheses hold by evaluation, their
pre-images differ, and they keep distinct encodings of the changed
field. -/
theorem c2_hash_sensitivity_amended_witness :
    ({ name := "pkg", version := none, inputs := [], build_hash := "b1",
       outputs := ["out"],
       system := { platform := "p", os := "o", arch := "a", hostname := "h",
                   username := "u" } } : DerivationSpec).build_hash ≠
      ({ name := "pkg", version := none, inputs := [], build_hash := "b2",
         outputs := ["out"],
         system := { platform := "p", os := "o", arch := "a", hostname := "h",
                     username := "u" } } : DerivationSpec).build_hash ∧
    computeHashInput
      { name := "pkg", version := none, inputs := [], build_hash := "b1",
        outputs := ["out"],
        system := { platform := "p", os := "o", arch := "a", hostname := "h",
                    username := "u" } } ≠
    computeHashInput
      { name := "pkg", version := none, inputs := [], build_hash := "b2",
        outputs := ["out"],
        system := { platform := "p", os := "o", arch := "a", hostname := "h",
                    username := "u" } } := by
  refine ⟨by decide, fun heq => ?_⟩
  have h := c2_hash_sensitivity_amended _ _
    (by decide) (by decide) (by decide) (by decide) (by decide)
    (by decide) (by decide) (by decide) (by decide) (by decide) heq
  exact absurd h.2.2.2.1 (by decide)

end Syslua
